import Mathlib

/-!
Shallow embedding of the d2r_itemdb store and reconciler core
(src/app.ts, src/app.js, src/unnamed/part_000).

The three source files share one `D2Database` class (IndexedDB-backed
item store with `addItem`, `searchItems`, `updateSeedData`); the
`App.checkAndLoadData` reconciler embedded here is the version-gated
flow of src/app.js / src/unnamed/part_000 (lightweight version file,
loading overlay, inner try/catch/finally), which the spec designates
as the contract.

Modelling conventions:
* The IndexedDB object store `items` (keyPath `id`, autoIncrement)
  becomes `DB`: a list of stored records in key order plus the key
  generator `nextId`.  IndexedDB's generator starts at 1 and is never
  rewound by deletes; `getAll` and cursor iteration enumerate in
  ascending key order, which coincides with insertion order here
  because every call site stores records without a caller-supplied
  `id` (App.addItem builds `{type, name, description, tags}`; the
  remote dataset's items lack `id`), so the store always generates
  the key.  The embedded input record type therefore omits the
  optional `id` field of the `D2Item` interface.
* `meta` is never interpreted by any operation; it is omitted.
* JavaScript truthiness: `if (keyword)` on a string is `keyword ≠ ""`;
  `!item.isCustom` on a stored record is `isCustom = false` (every
  record reaching the store had `isCustom` assigned by `addItem` or
  `updateSeedData` before `store.add`); `getItem(k) || '0'` yields
  `"0"` exactly when the slot is absent or holds the empty string.
* A rejected IndexedDB transaction (`transaction.onerror`) has been
  aborted, and an aborted transaction rolls back all of its changes,
  so a failed `updateSeedData` leaves the store unchanged; the
  possibility of such a failure enters as the explicit `txFails`
  argument.  Per-request write failures of `addItem`
  (`request.onerror`) are not modelled; no claim depends on them.
* `fetch`/JSON failures are modelled by `Option`-valued environment
  fields (`none` covers network error, a non-ok response and a parse
  error alike).
-/

/-- An input record, as built by callers of `addItem` and as carried by
the remote dataset's `items` (the `D2Item` interface without the
store-assigned `id` and the uninterpreted `meta`).  `isCustom` is the
interface's optional flag; both insert paths overwrite it. -/
structure D2Item where
  type : String
  name : String
  description : String
  tags : List String
  isCustom : Option Bool := none
deriving DecidableEq, Repr

/-- A record as persisted in the `items` object store: the generated
key `id` plus the fields of `D2Item`, with `isCustom` always set
(`true` by `addItem`, `false` by `updateSeedData`). -/
structure StoredItem where
  id : Nat
  type : String
  name : String
  description : String
  tags : List String
  isCustom : Bool
deriving DecidableEq, Repr

/-- The content of a stored record: every field except the
store-assigned `id` and the provenance flag. -/
def StoredItem.content (s : StoredItem) : String × String × String × List String :=
  (s.type, s.name, s.description, s.tags)

/-- The content of an input record: every field except the optional
caller-supplied provenance flag (which both insert paths overwrite). -/
def D2Item.content (i : D2Item) : String × String × String × List String :=
  (i.type, i.name, i.description, i.tags)

/-- The `items` object store: records in ascending key order together
with the autoIncrement key generator. -/
structure DB where
  items : List StoredItem
  nextId : Nat
deriving DecidableEq, Repr

/-- A freshly created object store (IndexedDB key generators start
at 1). -/
def DB.empty : DB := ⟨[], 1⟩

/-- Well-formedness maintained by the key generator: every stored key
is below the generator's next value. -/
def DB.WF (db : DB) : Prop := ∀ s ∈ db.items, s.id < db.nextId

instance (db : DB) : Decidable db.WF := by
  unfold DB.WF
  infer_instance

/-- `store.getAll()`: every record, in ascending key order. -/
def DB.getAll (db : DB) : List StoredItem := db.items

/-- A record as stored by `addItem`: `item.isCustom = true` (whatever
the caller supplied), key generated by `store.add`. -/
def storedOfCustom (id : Nat) (item : D2Item) : StoredItem :=
  { id := id, type := item.type, name := item.name,
    description := item.description, tags := item.tags, isCustom := true }

/-- `D2Database.addItem` body on an open store: set
`item.isCustom = true`, then `store.add(item)` generates the next key
and resolves with it. -/
def DB.addItem (db : DB) (item : D2Item) : DB × Nat :=
  ({ items := db.items ++ [storedOfCustom db.nextId item],
     nextId := db.nextId + 1 }, db.nextId)

/-- JavaScript `a.includes(b)` on strings, after both sides have been
lowercased by the caller: substring containment. -/
def strIncludes (s pat : String) : Bool := decide (pat.toList <:+: s.toList)

/-- The keyword predicate of `searchItems`: the lowercased keyword is a
substring of the lowercased `name`, or of the lowercased
`description`, or of some lowercased tag.  (The source guards with
`item.tags && ...`; `tags` is a required field of `D2Item`, so the
guard is always passed here.) -/
def itemMatchesKeyword (lowerKey : String) (i : StoredItem) : Bool :=
  strIncludes i.name.toLower lowerKey ||
  strIncludes i.description.toLower lowerKey ||
  i.tags.any (fun tag => strIncludes tag.toLower lowerKey)

/-- `D2Database.searchItems` body on an open store: `getAll`, then a
category equality filter unless the category is `"all"`, then — for a
non-empty keyword — the lowercased substring filter. -/
def DB.searchItems (db : DB) (keyword category : String) : List StoredItem :=
  let results := db.getAll
  let results :=
    if category ≠ "all" then results.filter (fun i => i.type == category)
    else results
  if keyword ≠ "" then
    let lowerKey := keyword.toLower
    results.filter (fun i => itemMatchesKeyword lowerKey i)
  else results

/-- A seed record as stored by `updateSeedData`: `item.isCustom =
false`, key generated by `store.add`. -/
def storedOfSeed (id : Nat) (item : D2Item) : StoredItem :=
  { id := id, type := item.type, name := item.name,
    description := item.description, tags := item.tags, isCustom := false }

/-- The `newItems.forEach(item => { item.isCustom = false;
store.add(item); })` loop of `updateSeedData`: each `add` consumes the
next generated key. -/
def DB.insertSeedBatch (db : DB) : List D2Item → DB
  | [] => db
  | item :: rest =>
      DB.insertSeedBatch
        { items := db.items ++ [storedOfSeed db.nextId item],
          nextId := db.nextId + 1 } rest

/-- `D2Database.updateSeedData` body on an open store: the cursor sweep
deletes every record with a falsy `isCustom` (keeping exactly the
custom records, in key order), then the new seed batch is inserted;
deleting records does not rewind the key generator. -/
def DB.updateSeedData (db : DB) (newItems : List D2Item) : DB :=
  DB.insertSeedBatch
    { items := db.items.filter (fun i => i.isCustom), nextId := db.nextId }
    newItems

/-- The `D2Database` class: `this.db` is `null` until `connect()`
succeeds. -/
structure D2Database where
  db : Option DB
deriving DecidableEq, Repr

/-- `connect()` on success: `this.db` becomes the opened database —
the persisted store if the schema already existed, a freshly created
one otherwise (`onupgradeneeded` creates the collection idempotently). -/
def D2Database.connect (persisted : Option DB) : D2Database :=
  { db := some (persisted.getD DB.empty) }

/-- `D2Database.addItem`: rejects with `"DB not initialized"` before
`connect()` succeeds, otherwise stores the record and resolves with
the generated key. -/
def D2Database.addItem (d : D2Database) (item : D2Item) :
    D2Database × Except String Nat :=
  match d.db with
  | none => (d, Except.error "DB not initialized")
  | some s =>
      let r := s.addItem item
      ({ db := some r.1 }, Except.ok r.2)

/-- `D2Database.searchItems`: rejects with `"DB not initialized"`
before `connect()` succeeds, otherwise resolves with the filtered
records (a readonly transaction; no state change). -/
def D2Database.searchItems (d : D2Database) (keyword category : String) :
    Except String (List StoredItem) :=
  match d.db with
  | none => Except.error "DB not initialized"
  | some s => Except.ok (s.searchItems keyword category)

/-- `D2Database.updateSeedData`: rejects with `"DB not initialized"`
before `connect()` succeeds; `txFails` models the readwrite
transaction firing `onerror`, in which case the aborted transaction
has rolled back and the promise rejects with the transaction error;
otherwise the sweep commits and the promise resolves. -/
def D2Database.updateSeedData (d : D2Database) (newItems : List D2Item)
    (txFails : Bool) : D2Database × Except String Unit :=
  match d.db with
  | none => (d, Except.error "DB not initialized")
  | some s =>
      if txFails then (d, Except.error "transaction error")
      else ({ db := some (s.updateSeedData newItems) }, Except.ok ())

/-!
The reconciler (`App.checkAndLoadData` of src/app.js /
src/unnamed/part_000) and the version gate.

`localStorage` is modelled by the single slot it uses
(`'d2r_data_version'`), an `Option String` (`getItem` returns `null`
when the key was never set).  JavaScript `parseInt` (radix inferred,
applied as the source does to a decimal string without a `0x` prefix)
and `Number.prototype.toString` on an integral value are modelled by
`parseIntJS` / `jsNumToString`; `parseIntJS s = none` models a `NaN`
result, and every `NaN` comparison is false.
-/

/-- The numeric value of a decimal digit character. -/
def digitVal (c : Char) : Nat := c.toNat - 48

/-- The maximal leading run of decimal digits, folded to a number;
`none` (NaN) when there is no leading digit. -/
def digitsToNat (cs : List Char) : Option Nat :=
  let ds := cs.takeWhile Char.isDigit
  if ds.isEmpty then none
  else some (ds.foldl (fun acc c => 10 * acc + digitVal c) 0)

/-- JavaScript `parseInt(s)` on inputs without a radix prefix: skip
leading whitespace, accept one optional sign, then parse the maximal
run of decimal digits; NaN (`none`) when no digit follows. -/
def parseIntJS (s : String) : Option Int :=
  match s.toList.dropWhile Char.isWhitespace with
  | [] => none
  | c :: rest =>
      if c = '-' then (digitsToNat rest).map (fun n => -(Int.ofNat n))
      else if c = '+' then (digitsToNat rest).map (fun n => Int.ofNat n)
      else (digitsToNat (c :: rest)).map (fun n => Int.ofNat n)

/-- Fuel-driven worker for `natDigitsRev` (structural recursion on the
fuel, so that the kernel can evaluate it; any fuel above the number of
digits gives the same result). -/
def natDigitsRevAux (fuel n : Nat) : List Char :=
  match fuel with
  | 0 => []
  | fuel + 1 =>
      if n < 10 then [Char.ofNat (48 + n)]
      else Char.ofNat (48 + n % 10) :: natDigitsRevAux fuel (n / 10)

/-- The decimal digit characters of `n`, least significant first
(`n + 1` units of fuel always suffice: each step divides by 10). -/
def natDigitsRev (n : Nat) : List Char := natDigitsRevAux (n + 1) n

/-- JavaScript `Number.prototype.toString()` on an integral value:
decimal digits, `'-'`-prefixed when negative. -/
def jsNumToString (v : Int) : String :=
  match v with
  | Int.ofNat n => ((natDigitsRev n).reverse).asString
  | Int.negSucc n => ('-' :: (natDigitsRev (n + 1)).reverse).asString

/-- `parseInt(localStorage.getItem(VERSION_KEY) || '0')`: the `|| '0'`
default applies exactly when the slot is absent (`getItem` returned
`null`) or holds the empty string (both falsy); any other stored
string goes to `parseInt` as is. -/
def readWatermark (slot : Option String) : Option Int :=
  parseIntJS
    (match slot with
     | none => "0"
     | some s => if s = "" then "0" else s)

/-- The version gate `remoteVersion > currentVersion`: false whenever
`currentVersion` is NaN (every JavaScript comparison with NaN is
false), otherwise the integer comparison. -/
def gateFires (remote : Int) (slot : Option String) : Bool :=
  match readWatermark slot with
  | none => false
  | some w => decide (w < remote)

/-- The user-visible message `alert`ed by the inner catch of
`checkAndLoadData`. -/
def updateFailAlert : String := "데이터 업데이트 중 문제가 발생했습니다."

/-- The application state touched by `checkAndLoadData`: the database
wrapper, the persisted watermark slot, whether the loading overlay is
shown (`showLoading`/`hideLoading`), and the user-visible channel of
`alert` messages, in order. -/
structure AppState where
  d2db : D2Database
  versionSlot : Option String
  loadingShown : Bool
  alerts : List String
deriving DecidableEq, Repr

/-- One run's external environment: the outcome of the version-file
fetch (`none` covers a network error, a non-ok response and a JSON
parse error), the outcome of the dataset fetch, and whether the
`updateSeedData` transaction fails. -/
structure FetchEnv where
  versionFetch : Option Int
  dataFetch : Option (List D2Item)
  applyFails : Bool
deriving DecidableEq, Repr

/-- `App.checkAndLoadData` (src/app.js variant): fetch the version
descriptor — on failure the outer catch only logs, leaving everything
untouched; compare against the parsed watermark; when the gate fires,
show the loading overlay and fetch the dataset; on fetch or apply
failure the inner catch `alert`s and the `finally` hides the overlay;
on success the store is updated, the watermark slot is set to
`remoteVersion.toString()`, the active search is re-run (rendering is
outside the core) and the `finally` hides the overlay. -/
def checkAndLoadData (env : FetchEnv) (st : AppState) : AppState :=
  match env.versionFetch with
  | none => st
  | some remoteVersion =>
      if gateFires remoteVersion st.versionSlot then
        let st1 : AppState := { st with loadingShown := true }
        match env.dataFetch with
        | none =>
            { st1 with alerts := st1.alerts ++ [updateFailAlert],
                       loadingShown := false }
        | some items =>
            match st1.d2db.updateSeedData items env.applyFails with
            | (d2, Except.error _) =>
                { st1 with d2db := d2,
                           alerts := st1.alerts ++ [updateFailAlert],
                           loadingShown := false }
            | (d2, Except.ok _) =>
                { st1 with d2db := d2,
                           versionSlot := some (jsNumToString remoteVersion),
                           loadingShown := false }
      else st

/-- JavaScript `String.prototype.trim()` (on the ASCII whitespace
subset): strip leading and trailing whitespace characters. -/
def jsTrim (s : String) : String :=
  (((s.toList.dropWhile Char.isWhitespace).reverse.dropWhile
      Char.isWhitespace).reverse).asString

/-- `App.handleSearch`'s query step: the raw input value is trimmed
before it is handed to `searchItems` (rendering is outside the core). -/
def handleSearchQuery (db : DB) (inputValue category : String) :
    List StoredItem :=
  db.searchItems (jsTrim inputValue) category

/-!
Proof infrastructure: a closed form for the seed-insert loop.
-/

/-- The batch of seed records as stored, keys counted off from
`start` (closed form of the insert loop, used only in proofs). -/
def seedTagged (start : Nat) : List D2Item → List StoredItem
  | [] => []
  | item :: rest => storedOfSeed start item :: seedTagged (start + 1) rest

theorem insertSeedBatch_items (l : List D2Item) (db : DB) :
    (db.insertSeedBatch l).items = db.items ++ seedTagged db.nextId l := by
  induction l generalizing db with
  | nil => simp [DB.insertSeedBatch, seedTagged]
  | cons item rest ih =>
      simp only [DB.insertSeedBatch, seedTagged, ih, List.append_assoc,
        List.singleton_append]

theorem insertSeedBatch_nextId (l : List D2Item) (db : DB) :
    (db.insertSeedBatch l).nextId = db.nextId + l.length := by
  induction l generalizing db with
  | nil => simp [DB.insertSeedBatch]
  | cons item rest ih =>
      simp only [DB.insertSeedBatch, ih, List.length_cons]
      omega

theorem seedTagged_isCustom (start : Nat) (l : List D2Item) :
    ∀ s ∈ seedTagged start l, s.isCustom = false := by
  induction l generalizing start with
  | nil => simp [seedTagged]
  | cons item rest ih =>
      intro s hs
      rcases List.mem_cons.mp hs with h | h
      · subst h; rfl
      · exact ih (start + 1) s h

theorem seedTagged_map_content (start : Nat) (l : List D2Item) :
    (seedTagged start l).map StoredItem.content = l.map D2Item.content := by
  induction l generalizing start with
  | nil => rfl
  | cons item rest ih =>
      simp only [seedTagged, List.map_cons, ih]
      rfl

theorem seedTagged_map_id (start : Nat) (l : List D2Item) :
    (seedTagged start l).map StoredItem.id = List.range' start l.length := by
  induction l generalizing start with
  | nil => rfl
  | cons item rest ih =>
      simp only [seedTagged, List.map_cons, List.length_cons, List.range'_succ,
        ih]
      rfl

theorem seedTagged_id_ge (start : Nat) (l : List D2Item) :
    ∀ s ∈ seedTagged start l, start ≤ s.id := by
  induction l generalizing start with
  | nil => simp [seedTagged]
  | cons item rest ih =>
      intro s hs
      rcases List.mem_cons.mp hs with h | h
      · subst h; exact Nat.le_refl _
      · exact Nat.le_of_succ_le (ih (start + 1) s h)

theorem updateSeedData_items (db : DB) (batch : List D2Item) :
    (db.updateSeedData batch).items =
      db.items.filter (fun i => i.isCustom) ++ seedTagged db.nextId batch := by
  unfold DB.updateSeedData
  rw [insertSeedBatch_items]

theorem updateSeedData_filter_seed (db : DB) (batch : List D2Item) :
    (db.updateSeedData batch).items.filter (fun i => !i.isCustom) =
      seedTagged db.nextId batch := by
  rw [updateSeedData_items, List.filter_append]
  have h1 : (db.items.filter (fun i => i.isCustom)).filter
      (fun i => !i.isCustom) = [] := by
    rw [List.filter_eq_nil_iff]
    intro a ha
    simp only [List.mem_filter] at ha
    simp [ha.2]
  have h2 : (seedTagged db.nextId batch).filter (fun i => !i.isCustom) =
      seedTagged db.nextId batch := by
    rw [List.filter_eq_self]
    intro a ha
    simp [seedTagged_isCustom db.nextId batch a ha]
  rw [h1, h2, List.nil_append]

/-!
Concrete sample states used by the witness theorems.
-/

/-- A sample custom (user-entered) record already in the store. -/
def customRec : StoredItem :=
  { id := 2, type := "rune", name := "MyRune", description := "mine",
    tags := ["x"], isCustom := true }

/-- A sample store holding one seed record and one custom record. -/
def dbSample : DB :=
  { items := [{ id := 1, type := "rune", name := "El Rune",
                description := "first rune", tags := ["El"],
                isCustom := false },
              customRec],
    nextId := 3 }

/-- A sample incoming seed batch. -/
def seedBatchSample : List D2Item :=
  [{ type := "quest", name := "Den of Evil", description := "act 1 quest",
     tags := ["act1"] }]

/-- C1: for every store state and every batch of new seed records, a
completed `updateSeedData` (replaceSeed) keeps every custom-provenance
record present and unchanged: any stored record with `isCustom = true`
is still a member of the store afterwards. -/
theorem updateSeedData_preserves_custom (db : DB) (batch : List D2Item)
    (x : StoredItem) (hx : x ∈ db.items) (hc : x.isCustom = true) :
    x ∈ (db.updateSeedData batch).items := by
  rw [updateSeedData_items]
  exact List.mem_append_left _ (List.mem_filter.mpr ⟨hx, by simp [hc]⟩)

theorem updateSeedData_preserves_custom_witness :
    customRec ∈ dbSample.items ∧ customRec.isCustom = true ∧
    customRec ∈ (dbSample.updateSeedData seedBatchSample).items :=
  ⟨by decide, by decide,
   updateSeedData_preserves_custom dbSample seedBatchSample customRec
     (by decide) (by decide)⟩

/-- C2: after `updateSeedData batch` on a well-formed store, the
seed-provenance records are exactly the batch, in order and by
content, each tagged seed, and each carrying a freshly generated key
(`nextId`, `nextId + 1`, …) distinct from every key already in the
store — however many seed records existed before. -/
theorem updateSeedData_seed_records (db : DB) (batch : List D2Item)
    (hwf : db.WF) :
    ((db.updateSeedData batch).items.filter (fun i => !i.isCustom)).map
        StoredItem.content = batch.map D2Item.content ∧
    ((db.updateSeedData batch).items.filter (fun i => !i.isCustom)).map
        StoredItem.id = List.range' db.nextId batch.length ∧
    (∀ i ∈ (db.updateSeedData batch).items.filter (fun i => !i.isCustom),
        i.isCustom = false) ∧
    (∀ i ∈ (db.updateSeedData batch).items.filter (fun i => !i.isCustom),
        ∀ j ∈ db.items, i.id ≠ j.id) := by
  rw [updateSeedData_filter_seed]
  refine ⟨seedTagged_map_content _ _, seedTagged_map_id _ _,
    seedTagged_isCustom _ _, ?_⟩
  intro i hi j hj
  have h1 := seedTagged_id_ge db.nextId batch i hi
  have h2 := hwf j hj
  omega

theorem updateSeedData_seed_records_witness :
    DB.WF dbSample ∧
    (((dbSample.updateSeedData seedBatchSample).items.filter
        (fun i => !i.isCustom)).map StoredItem.content =
      seedBatchSample.map D2Item.content ∧
    ((dbSample.updateSeedData seedBatchSample).items.filter
        (fun i => !i.isCustom)).map StoredItem.id =
      List.range' dbSample.nextId seedBatchSample.length ∧
    (∀ i ∈ (dbSample.updateSeedData seedBatchSample).items.filter
        (fun i => !i.isCustom), i.isCustom = false) ∧
    (∀ i ∈ (dbSample.updateSeedData seedBatchSample).items.filter
        (fun i => !i.isCustom), ∀ j ∈ dbSample.items, i.id ≠ j.id)) :=
  ⟨by decide, updateSeedData_seed_records dbSample seedBatchSample (by decide)⟩

/-- C7: after a successful connect (an open database handle), each
`addItem` call stores its record with provenance forced to custom
whatever flag the caller supplied, under a fresh key distinct from
every key already in the store, resolves with that key, the stored
record is returned by a subsequent `getAll` (queryAll), and the store
stays well-formed (so the guarantee holds along any sequence of
calls). -/
theorem addItem_custom_fresh (d : D2Database) (s : DB) (item : D2Item)
    (hconn : d.db = some s) (hwf : s.WF) :
    d.addItem item =
      ({ db := some { items := s.items ++ [storedOfCustom s.nextId item],
                      nextId := s.nextId + 1 } }, Except.ok s.nextId) ∧
    (storedOfCustom s.nextId item).isCustom = true ∧
    (∀ x ∈ s.items, x.id ≠ s.nextId) ∧
    storedOfCustom s.nextId item ∈
      DB.getAll { items := s.items ++ [storedOfCustom s.nextId item],
                  nextId := s.nextId + 1 } ∧
    DB.WF { items := s.items ++ [storedOfCustom s.nextId item],
            nextId := s.nextId + 1 } := by
  obtain ⟨odb⟩ := d
  simp only at hconn
  subst hconn
  refine ⟨rfl, rfl, ?_, ?_, ?_⟩
  · intro x hx
    have := hwf x hx
    omega
  · exact List.mem_append_right _ (List.mem_singleton.mpr rfl)
  · intro t ht
    show t.id < s.nextId + 1
    rcases List.mem_append.mp ht with h | h
    · have := hwf t h
      omega
    · rw [List.mem_singleton.mp h]
      exact Nat.lt_succ_self _

/-- A sample user-submitted record that (wrongly) carries an explicit
non-custom flag, which `addItem` must override. -/
def mercItem : D2Item :=
  { type := "merc", name := "Haseen", description := "act 2 merc",
    tags := [], isCustom := some false }

/-- The sample store after `addItem mercItem`. -/
def dbAfterAdd : DB :=
  { items := dbSample.items ++ [storedOfCustom dbSample.nextId mercItem],
    nextId := dbSample.nextId + 1 }

theorem addItem_custom_fresh_witness :
    (D2Database.mk (some dbSample)).db = some dbSample ∧ DB.WF dbSample ∧
    ((D2Database.mk (some dbSample)).addItem mercItem =
      (D2Database.mk (some dbAfterAdd), Except.ok dbSample.nextId) ∧
    (storedOfCustom dbSample.nextId mercItem).isCustom = true ∧
    (∀ x ∈ dbSample.items, x.id ≠ dbSample.nextId) ∧
    storedOfCustom dbSample.nextId mercItem ∈ DB.getAll dbAfterAdd ∧
    DB.WF dbAfterAdd) :=
  ⟨rfl, by decide,
   addItem_custom_fresh (D2Database.mk (some dbSample)) dbSample mercItem
     rfl (by decide)⟩

/-!
Decimal digits: facts about `natDigitsRev`, `digitsToNat` and the
`parseIntJS`/`jsNumToString` round trip, used for the watermark
claims.
-/

theorem digitChar_props (m : Nat) (h : m < 10) :
    (Char.ofNat (48 + m)).isDigit = true ∧
    (Char.ofNat (48 + m)).isWhitespace = false ∧
    digitVal (Char.ofNat (48 + m)) = m ∧
    ¬(Char.ofNat (48 + m) = '-') ∧ ¬(Char.ofNat (48 + m) = '+') := by
  interval_cases m <;> decide

theorem natDigitsRevAux_congr (fuel : Nat) :
    ∀ fuel' n, n < fuel → n < fuel' →
      natDigitsRevAux fuel n = natDigitsRevAux fuel' n := by
  induction fuel with
  | zero => intro fuel' n h; omega
  | succ f ih =>
      intro fuel' n h h'
      cases fuel' with
      | zero => omega
      | succ f' =>
          show natDigitsRevAux (f + 1) n = natDigitsRevAux (f' + 1) n
          unfold natDigitsRevAux
          by_cases h10 : n < 10
      
    
          · simp [h10]
          · simp only [h10, if_false]
            rw [ih f' (n / 10) (by omega) (by omega)]

theorem natDigitsRev_eq (n : Nat) :
    natDigitsRev n =
      if n < 10 then [Char.ofNat (48 + n)]
      else Char.ofNat (48 + n % 10) :: natDigitsRev (n / 10) := by
  unfold natDigitsRev
  conv_lhs => rw [natDigitsRevAux]
  by_cases h10 : n < 10
  · simp [h10]
  · simp only [h10, if_false]
    rw [natDigitsRevAux_congr n (n / 10 + 1) (n / 10) (by omega) (by omega)]

theorem natDigitsRev_all_digit (n : Nat) :
    ∀ c ∈ natDigitsRev n, c.isDigit = true ∧ c.isWhitespace = false ∧
      ¬(c = '-') ∧ ¬(c = '+') := by
  induction n using Nat.strong_induction_on with
  | _ n ih =>
      rw [natDigitsRev_eq]
      by_cases h10 : n < 10
      · simp only [h10, if_true]
        intro c hc
        rw [List.mem_singleton.mp hc]
        have hp := digitChar_props n h10
        exact ⟨hp.1, hp.2.1, hp.2.2.2.1, hp.2.2.2.2⟩
      · simp only [h10, if_false]
        intro c hc
        rcases List.mem_cons.mp hc with h | h
        · subst h
          have hp := digitChar_props (n % 10) (Nat.mod_lt n (by omega))
          exact ⟨hp.1, hp.2.1, hp.2.2.2.1, hp.2.2.2.2⟩
        · exact ih (n / 10) (Nat.div_lt_self (by omega) (by omega)) c h

theorem natDigitsRev_ne_nil (n : Nat) : natDigitsRev n ≠ [] := by
  rw [natDigitsRev_eq]
  by_cases h10 : n < 10 <;> simp [h10]

theorem natDigitsRev_foldl (n : Nat) : ∀ acc : Nat,
    ((natDigitsRev n).reverse).foldl (fun a c => 10 * a + digitVal c) acc =
      acc * 10 ^ (natDigitsRev n).length + n := by
  induction n using Nat.strong_induction_on with
  | _ n ih =>
      intro acc
      rw [natDigitsRev_eq]
      by_cases h10 : n < 10
      · simp only [h10, if_true, List.reverse_singleton, List.foldl_cons,
          List.foldl_nil, List.length_singleton, pow_one]
        rw [(digitChar_props n h10).2.2.1]
        omega
      · simp only [h10, if_false, List.reverse_cons, List.foldl_append,
          List.foldl_cons, List.foldl_nil, List.length_cons]
        rw [ih (n / 10) (Nat.div_lt_self (by omega) (by omega)) acc]
        rw [(digitChar_props (n % 10) (Nat.mod_lt n (by omega))).2.2.1]
        rw [pow_succ, ← mul_assoc]
        generalize acc * 10 ^ (natDigitsRev (n / 10)).length = A
        omega

theorem takeWhile_eq_of_all {α : Type} (p : α → Bool) (l : List α)
    (h : ∀ c ∈ l, p c = true) : l.takeWhile p = l := by
  induction l with
  | nil => rfl
  | cons a l ih =>
      rw [List.takeWhile_cons, if_pos (h a (List.mem_cons_self a l))]
      rw [ih (fun c hc => h c (List.mem_cons_of_mem a hc))]

theorem dropWhile_eq_of_all_neg {α : Type} (p : α → Bool) (l : List α)
    (h : ∀ c ∈ l, p c = false) : l.dropWhile p = l := by
  cases l with
  | nil => rfl
  | cons a l =>
      rw [List.dropWhile_cons, if_neg]
      simp [h a (List.mem_cons_self a l)]

theorem digitsToNat_natDigitsRev (n : Nat) :
    digitsToNat ((natDigitsRev n).reverse) = some n := by
  unfold digitsToNat
  have hall : ∀ c ∈ (natDigitsRev n).reverse, c.isDigit = true := by
    intro c hc
    exact (natDigitsRev_all_digit n c (List.mem_reverse.mp hc)).1
  simp only [takeWhile_eq_of_all _ _ hall]
  rw [if_neg]
  · rw [natDigitsRev_foldl n 0]
    simp
  · simp [List.isEmpty_iff, natDigitsRev_ne_nil n]

theorem parseIntJS_natDigits (n : Nat) :
    parseIntJS ((natDigitsRev n).reverse.asString) = some (Int.ofNat n) := by
  unfold parseIntJS
  have htl : ((natDigitsRev n).reverse.asString).toList =
      (natDigitsRev n).reverse := rfl
  rw [htl]
  have hdrop : (natDigitsRev n).reverse.dropWhile Char.isWhitespace =
      (natDigitsRev n).reverse := by
    refine dropWhile_eq_of_all_neg _ _ ?_
    intro c hc
    exact (natDigitsRev_all_digit n c (List.mem_reverse.mp hc)).2.1
  rw [hdrop]
  cases hcs : (natDigitsRev n).reverse with
  | nil =>
      exact absurd (List.reverse_eq_nil_iff.mp hcs) (natDigitsRev_ne_nil n)
  | cons c rest =>
      have hcmem : c ∈ natDigitsRev n := by
        rw [← List.mem_reverse, hcs]
        exact List.mem_cons_self c rest
      have hprops := natDigitsRev_all_digit n c hcmem
      simp only []
      rw [if_neg hprops.2.2.1, if_neg hprops.2.2.2]
      rw [← hcs, digitsToNat_natDigitsRev n]
      rfl

theorem parseIntJS_jsNumToString (v : Int) :
    parseIntJS (jsNumToString v) = some v := by
  cases v with
  | ofNat n => exact parseIntJS_natDigits n
  | negSucc n =>
      unfold jsNumToString parseIntJS
      have htl : (('-' :: (natDigitsRev (n + 1)).reverse).asString).toList =
          '-' :: (natDigitsRev (n + 1)).reverse := rfl
      rw [htl]
      have hdrop : ('-' :: (natDigitsRev (n + 1)).reverse).dropWhile
          Char.isWhitespace = '-' :: (natDigitsRev (n + 1)).reverse := by
        rw [List.dropWhile_cons, if_neg]
        decide
      rw [hdrop]
      simp only [if_pos rfl, digitsToNat_natDigitsRev (n + 1), Option.map_some]
      rw [Int.negSucc_eq]
      simp

theorem jsNumToString_ne_empty (v : Int) : jsNumToString v ≠ "" := by
  cases v with
  | ofNat n =>
      intro h
      have : (natDigitsRev n).reverse = ("" : String).toList :=
        congrArg String.toList h
      simp only [String.toList_empty] at this
      exact natDigitsRev_ne_nil n (List.reverse_eq_nil_iff.mp this)
  | negSucc n =>
      intro h
      have : '-' :: (natDigitsRev (n + 1)).reverse = ("" : String).toList :=
        congrArg String.toList h
      simp at this

theorem readWatermark_write (v : Int) :
    readWatermark (some (jsNumToString v)) = some v := by
  show parseIntJS
    (if jsNumToString v = "" then "0" else jsNumToString v) = some v
  rw [if_neg (jsNumToString_ne_empty v)]
  exact parseIntJS_jsNumToString v

theorem readWatermark_default : readWatermark none = some 0 := by decide

theorem gateFires_true_iff (v : Int) (slot : Option String) :
    gateFires v slot = true ↔
      ∃ w, readWatermark slot = some w ∧ w < v := by
  unfold gateFires
  cases h : readWatermark slot with
  | none => simp
  | some w => simp

/-!
The remaining claim theorems.
-/

/-- C3: the version gate fires iff the remote version is strictly
above the parsed watermark; when it does not fire (equal or lower
remote version), `checkAndLoadData` leaves the whole state — store
included — unchanged; a never-persisted watermark reads as the
default 0, so the gate then fires exactly when the remote version is
positive. -/
theorem versionGate_iff (v w : Int) (slot : Option String) (env : FetchEnv)
    (st : AppState) :
    (readWatermark slot = some w → (gateFires v slot = true ↔ w < v)) ∧
    (env.versionFetch = some v → gateFires v st.versionSlot = false →
      checkAndLoadData env st = st) ∧
    readWatermark none = some 0 ∧
    (gateFires v none = true ↔ 0 < v) := by
  refine ⟨?_, ?_, readWatermark_default, ?_⟩
  · intro h
    unfold gateFires
    rw [h]
    simp
  · intro hv hg
    unfold checkAndLoadData
    rw [hv]
    simp [hg]
  · unfold gateFires
    rw [readWatermark_default]
    simp

theorem versionGate_iff_witness :
    readWatermark (some "2") = some 2 ∧
    (gateFires 3 (some "2") = true ↔ (2 : Int) < 3) ∧
    ((FetchEnv.mk (some 3) none false).versionFetch = some 3 ∧
      gateFires 3 (some "5") = false ∧
      checkAndLoadData (FetchEnv.mk (some 3) none false)
        (AppState.mk (D2Database.mk (some dbSample)) (some "5") false []) =
        AppState.mk (D2Database.mk (some dbSample)) (some "5") false []) ∧
    readWatermark none = some 0 ∧
    (gateFires 3 none = true ↔ (0 : Int) < 3) := by
  have h := versionGate_iff 3 2 (some "2") (FetchEnv.mk (some 3) none false)
    (AppState.mk (D2Database.mk (some dbSample)) (some "5") false [])
  exact ⟨by decide, h.1 (by decide), ⟨rfl, by decide, h.2.1 rfl (by decide)⟩,
    h.2.2.1, h.2.2.2⟩

/-- C4: `searchItems` returns exactly the stored records passing the
category-equality filter (waived for the wildcard `"all"`) and — for a
non-empty keyword — the lowercased substring match on name,
description or some tag; the result is the single filter of the
store's enumeration, hence a sublist preserving its order, with no
ranking. -/
theorem searchItems_filter_spec (db : DB) (kw cat : String) :
    db.searchItems kw cat =
      db.items.filter (fun i =>
        (cat == "all" || i.type == cat) &&
        (kw == "" || itemMatchesKeyword kw.toLower i)) ∧
    (db.searchItems kw cat).Sublist db.items := by
  have h : db.searchItems kw cat =
      db.items.filter (fun i =>
        (cat == "all" || i.type == cat) &&
        (kw == "" || itemMatchesKeyword kw.toLower i)) := by
    unfold DB.searchItems DB.getAll
    by_cases hc : cat = "all" <;> by_cases hk : kw = ""
    · have hcb : (cat == "all") = true := by simp [hc]
      have hkb : (kw == "") = true := by simp [hk]
      simp [hc, hk, hcb, hkb]
    · have hcb : (cat == "all") = true := by simp [hc]
      have hkb : (kw == "") = false := by simp [hk]
      simp [hc, hk, hcb, hkb]
    · have hcb : (cat == "all") = false := by simp [hc]
      have hkb : (kw == "") = true := by simp [hk]
      simp [hc, hk, hcb, hkb]
    · have hcb : (cat == "all") = false := by simp [hc]
      have hkb : (kw == "") = false := by simp [hk]
      simp [hc, hk, hcb, hkb, List.filter_filter, Bool.and_comm]
  exact ⟨h, h ▸ List.filter_sublist db.items⟩

/-- C8: a keyword whose trimmed form is empty (for instance pure
whitespace) reaches `searchItems` as the empty string, so no text
filter applies: the facade query equals `searchItems "" category`,
which is the category filter alone. -/
theorem search_trimmed_empty_keyword (db : DB) (kw cat : String)
    (h : jsTrim kw = "") :
    handleSearchQuery db kw cat = db.searchItems "" cat ∧
    db.searchItems "" cat =
      (if cat = "all" then db.items
       else db.items.filter (fun i => i.type == cat)) := by
  constructor
  · unfold handleSearchQuery
    rw [h]
  · unfold DB.searchItems DB.getAll
    by_cases hc : cat = "all" <;> simp [hc]

theorem search_trimmed_empty_keyword_witness :
    jsTrim " \t " = "" ∧
    (handleSearchQuery dbSample " \t " "rune" =
        dbSample.searchItems "" "rune" ∧
      dbSample.searchItems "" "rune" =
        (if "rune" = "all" then dbSample.items
         else dbSample.items.filter (fun i => i.type == "rune"))) :=
  ⟨by decide, search_trimmed_empty_keyword dbSample " \t " "rune" (by decide)⟩

/-- C9: before `connect()` has succeeded (`this.db` still null), each
of `addItem`, `searchItems` and `updateSeedData` rejects with the
`"DB not initialized"` error and the stored collection is left
untouched. -/
theorem notConnected_rejects (d : D2Database) (item : D2Item)
    (kw cat : String) (batch : List D2Item) (txFails : Bool)
    (h : d.db = none) :
    d.addItem item = (d, Except.error "DB not initialized") ∧
    d.searchItems kw cat = Except.error "DB not initialized" ∧
    d.updateSeedData batch txFails = (d, Except.error "DB not initialized") := by
  obtain ⟨odb⟩ := d
  simp only at h
  subst h
  exact ⟨rfl, rfl, rfl⟩

theorem notConnected_rejects_witness :
    (D2Database.mk none).db = none ∧
    ((D2Database.mk none).addItem mercItem =
        (D2Database.mk none, Except.error "DB not initialized") ∧
      (D2Database.mk none).searchItems "el" "all" =
        Except.error "DB not initialized" ∧
      (D2Database.mk none).updateSeedData seedBatchSample false =
        (D2Database.mk none, Except.error "DB not initialized")) :=
  ⟨rfl, notConnected_rejects (D2Database.mk none) mercItem "el" "all"
    seedBatchSample false rfl⟩

/-- C10: when the persisted watermark slot holds a non-empty string
that `parseInt` cannot read (NaN), the gate's comparison is false for
every remote version — no refresh ever fires and the state is never
touched; the zero default only replaces an absent or empty slot, so
the first-run guarantee does not recover from such corruption. -/
theorem corrupted_watermark_never_refreshes (slotVal : String)
    (hne : slotVal ≠ "") (hpar : parseIntJS slotVal = none) (v : Int)
    (env : FetchEnv) (st : AppState) (hslot : st.versionSlot = some slotVal)
    (henv : env.versionFetch = some v) :
    gateFires v st.versionSlot = false ∧ checkAndLoadData env st = st := by
  have hw : readWatermark st.versionSlot = none := by
    rw [hslot]
    show parseIntJS (if slotVal = "" then "0" else slotVal) = none
    rw [if_neg hne]
    exact hpar
  have hg : gateFires v st.versionSlot = false := by
    unfold gateFires
    rw [hw]
  refine ⟨hg, ?_⟩
  unfold checkAndLoadData
  rw [henv]
  simp [hg]

theorem corrupted_watermark_never_refreshes_witness :
    ("abc" : String) ≠ "" ∧ parseIntJS "abc" = none ∧
    (gateFires 7 (AppState.mk (D2Database.mk (some dbSample)) (some "abc")
        false []).versionSlot = false ∧
      checkAndLoadData (FetchEnv.mk (some 7) (some seedBatchSample) false)
        (AppState.mk (D2Database.mk (some dbSample)) (some "abc") false []) =
        AppState.mk (D2Database.mk (some dbSample)) (some "abc") false []) :=
  ⟨by decide, by decide,
   corrupted_watermark_never_refreshes "abc" (by decide) (by decide) 7
     (FetchEnv.mk (some 7) (some seedBatchSample) false)
     (AppState.mk (D2Database.mk (some dbSample)) (some "abc") false [])
     rfl rfl⟩

/-- C5: once the gate has fired (so the progress indicator was shown),
a failed dataset fetch or a failed seed apply always ends with the
indicator hidden, the failure alerted on the user-visible channel, the
watermark slot untouched, and the database — previous seed records
included — unchanged and still queryable. -/
theorem refresh_failure_isolated (env : FetchEnv) (st : AppState) (v : Int)
    (hv : env.versionFetch = some v)
    (hgate : gateFires v st.versionSlot = true)
    (hfail : env.dataFetch = none ∨ env.applyFails = true) :
    (checkAndLoadData env st).loadingShown = false ∧
    (checkAndLoadData env st).alerts = st.alerts ++ [updateFailAlert] ∧
    (checkAndLoadData env st).versionSlot = st.versionSlot ∧
    (checkAndLoadData env st).d2db = st.d2db := by
  unfold checkAndLoadData
  rw [hv]
  simp only [hgate, if_true]
  rcases hfail with hf | hf
  · simp [hf]
  · cases hd : env.dataFetch with
    | none => simp
    | some items =>
        cases hdb : st.d2db.db with
        | none => simp [D2Database.updateSeedData, hdb]
        | some s => simp [D2Database.updateSeedData, hdb, hf]

/-- The environment of a run whose gate fires but whose dataset fetch
fails. -/
def envFetchFail : FetchEnv := { versionFetch := some 7, dataFetch := none,
                                 applyFails := false }

/-- A connected application state with no watermark ever persisted. -/
def stFresh : AppState := { d2db := D2Database.mk (some dbSample),
                            versionSlot := none, loadingShown := false,
                            alerts := [] }

theorem refresh_failure_isolated_witness :
    envFetchFail.versionFetch = some 7 ∧
    gateFires 7 stFresh.versionSlot = true ∧
    (envFetchFail.dataFetch = none ∨ envFetchFail.applyFails = true) ∧
    ((checkAndLoadData envFetchFail stFresh).loadingShown = false ∧
      (checkAndLoadData envFetchFail stFresh).alerts =
        stFresh.alerts ++ [updateFailAlert] ∧
      (checkAndLoadData envFetchFail stFresh).versionSlot =
        stFresh.versionSlot ∧
      (checkAndLoadData envFetchFail stFresh).d2db = stFresh.d2db) :=
  ⟨rfl, by decide, Or.inl rfl,
   refresh_failure_isolated envFetchFail stFresh 7 rfl (by decide)
     (Or.inl rfl)⟩

/-- C6: whenever a run changes the persisted watermark slot, the run's
version fetch succeeded with some `v`, the dataset fetch succeeded,
the seed apply committed (the new store is `updateSeedData` of the
old), the old slot parsed to some `w` with `w < v`, and the slot now
holds exactly `v`'s decimal string, which parses back to `v` — so
across runs the watermark only ever moves strictly upward from its
implicit default of zero. -/
theorem watermark_write_monotone (env : FetchEnv) (st : AppState)
    (h : (checkAndLoadData env st).versionSlot ≠ st.versionSlot) :
    readWatermark none = some 0 ∧
    ∃ v w items s,
      env.versionFetch = some v ∧
      env.dataFetch = some items ∧
      env.applyFails = false ∧
      st.d2db.db = some s ∧
      readWatermark st.versionSlot = some w ∧
      w < v ∧
      (checkAndLoadData env st).versionSlot = some (jsNumToString v) ∧
      readWatermark (checkAndLoadData env st).versionSlot = some v ∧
      (checkAndLoadData env st).d2db.db = some (s.updateSeedData items) := by
  refine ⟨readWatermark_default, ?_⟩
  cases hv : env.versionFetch with
  | none => simp [checkAndLoadData, hv] at h
  | some v =>
      cases hg : gateFires v st.versionSlot with
      | false => simp [checkAndLoadData, hv, hg] at h
      | true =>
          cases hd : env.dataFetch with
          | none => simp [checkAndLoadData, hv, hg, hd] at h
          | some items =>
              cases hdb : st.d2db.db with
              | none =>
                  simp [checkAndLoadData, hv, hg, hd,
                    D2Database.updateSeedData, hdb] at h
              | some s =>
                  cases hf : env.applyFails with
                  | true =>
                      simp [checkAndLoadData, hv, hg, hd,
                        D2Database.updateSeedData, hdb, hf] at h
                  | false =>
                      obtain ⟨w, hw, hwv⟩ := (gateFires_true_iff v
                        st.versionSlot).mp hg
                      refine ⟨v, w, items, s, rfl, rfl, rfl, rfl, hw, hwv,
                        ?_, ?_, ?_⟩ <;>
                        simp [checkAndLoadData, hv, hg, hd,
                          D2Database.updateSeedData, hdb, hf,
                          readWatermark_write]

/-- The environment of a fully successful refresh run at remote
version 7. -/
def envRefreshOk : FetchEnv := { versionFetch := some 7,
                                 dataFetch := some seedBatchSample,
                                 applyFails := false }

theorem watermark_write_monotone_witness :
    (checkAndLoadData envRefreshOk stFresh).versionSlot ≠
      stFresh.versionSlot ∧
    (readWatermark none = some 0 ∧
      ∃ v w items s,
        envRefreshOk.versionFetch = some v ∧
        envRefreshOk.dataFetch = some items ∧
        envRefreshOk.applyFails = false ∧
        stFresh.d2db.db = some s ∧
        readWatermark stFresh.versionSlot = some w ∧
        w < v ∧
        (checkAndLoadData envRefreshOk stFresh).versionSlot =
          some (jsNumToString v) ∧
        readWatermark (checkAndLoadData envRefreshOk stFresh).versionSlot =
          some v ∧
        (checkAndLoadData envRefreshOk stFresh).d2db.db =
          some (s.updateSeedData items)) :=
  ⟨by decide, watermark_write_monotone envRefreshOk stFresh (by decide)⟩
